import Mathlib

/-!
Verification of the astronomical-darkness core of `app.py`.

The development shallowly embeds the algorithmic core of the repository:

* instants are UTC minutes (`ℤ`); a naive local `datetime` is likewise a
  minute count in the local civil calendar;
* degrees (Sun/Moon altitudes, ecliptic longitudes) are `ℚ`;
* the ephemeris (skyfield) and the timezone machinery (timezonefinder,
  pytz) are oracles passed in as explicit function parameters, matching
  the way the code only ever consumes their outputs;
* Python strings are Lean `String`s, built with the same decimal
  formatting as `f"..."` interpolation and `strftime("%H:%M")`.

Each definition mirrors the homonymous place of `src/app.py`; line
references are given in the doc comments.
-/

namespace AstroApp

/-- Configuration block of `app.py` (line 6): `MAX_DAYS = 30`. -/
def MAX_DAYS : ℕ := 30

/-- The two values of the `moon_affect` selectbox of `app.py`
(lines 431-434): the strings `"Include Moonlight"` and
`"Ignore Moonlight"`. -/
inductive MoonOption
  | includeMoonlight
  | ignoreMoonlight
deriving DecidableEq

/-- A pytz-style timezone, reduced to what the code consumes:
`fromUtc` is `astimezone(local_tz)` on a UTC instant (giving naive local
minutes), and `localize` is `local_tz.localize(naive, is_dst=None)`
(giving the UTC instant, or `none` when pytz raises on an ambiguous or
non-existent local time). -/
structure TZ where
  fromUtc : ℤ → ℤ
  localize : ℤ → Option ℤ

/-- Model of `pytz.utc`: localizing never fails and changes nothing. -/
def utcTZ : TZ := ⟨fun m => m, fun m => some m⟩

/-- Lines 183-191 of `app.py`: `tf.timezone_at` may return a falsy value
(modelled `none`), in which case the name `"UTC"` is used; an unknown
name in `pytz.timezone` falls back to `pytz.utc`. -/
def resolveTz (lookup : String → Option TZ) (tzAt : Option String) : TZ :=
  let tz_name := match tzAt with
    | none => "UTC"
    | some n => n
  match lookup tz_name with
  | some tz => tz
  | none => utcTZ

/-- The ephemeris oracle: `sun_alt_deg` / `moon_alt_deg`
(lines 197-205 of `app.py`) and the two `ecliptic_latlon` longitudes
used for the phase (lines 296-297), all as functions of the UTC
minute. -/
structure Ephemeris where
  sunAlt : ℤ → ℚ
  moonAlt : ℤ → ℚ
  sunEclLon : ℤ → ℚ
  moonEclLon : ℤ → ℚ

/-! ### Decimal rendering and parsing of Python integers -/

/-- Little-endian base-10 digits of `n`, with explicit fuel so that the
recursion is structural (the fuel `n` itself always suffices). -/
def digitsAux : ℕ → ℕ → List ℕ
  | 0, _ => []
  | _ + 1, 0 => []
  | fuel + 1, n + 1 => (n + 1) % 10 :: digitsAux fuel ((n + 1) / 10)

/-- The character of a decimal digit. -/
def digitChr (d : ℕ) : Char := Char.ofNat (48 + d)

/-- Python `str(n)` for a non-negative int: most-significant digit
first, `"0"` for zero. -/
def natStr (n : ℕ) : String :=
  if n = 0 then "0" else String.mk (((digitsAux n n).reverse).map digitChr)

/-- Python `int(s)` on a decimal-digit string: fold the digits. -/
def parseNat (s : String) : ℕ :=
  s.data.foldl (fun acc c => acc * 10 + (c.toNat - 48)) 0

/-- Two-digit zero padding, as `strftime` does for `%H` and `%M`. -/
def pad2 (n : ℕ) : String :=
  if n < 10 then "0" ++ natStr n else natStr n

/-- Model of `t.utc_datetime().astimezone(local_tz).strftime("%H:%M")` for a UTC
minute `t`: convert to local naive minutes, take the minute of day, and
print `HH:MM`. -/
def localHHMM (tz : TZ) (t : ℤ) : String :=
  let m := (tz.fromUtc t) % 1440
  pad2 (m.toNat / 60) ++ ":" ++ pad2 (m.toNat % 60)

/-- Lines 302-303 of `app.py`:
`f"{int(h)} Hours {int(m)} Minutes"` applied to `mins // 60` and
`mins % 60`. -/
def formatHM (mins : ℕ) : String :=
  natStr (mins / 60) ++ " Hours " ++ natStr (mins % 60) ++ " Minutes"

/-- Helper of `pySplit`: splits on spaces, accumulating the current
word reversed, discarding empty words, as Python `str.split()` does
(the strings at hand contain no other whitespace). -/
def wordsAux : List Char → List Char → List String
  | [], [] => []
  | [], w => [String.mk w.reverse]
  | c :: rest, w =>
    if c = ' ' then
      if w = [] then wordsAux rest [] else String.mk w.reverse :: wordsAux rest []
    else wordsAux rest (c :: w)

/-- Python `s.split()` (whitespace split, empties dropped), as used on
lines 559-564 of `app.py`. -/
def pySplit (s : String) : List String := wordsAux s.data []

/-- Lines 559-566 of `app.py`: split an `"H Hours M Minutes"` string and
rebuild the minute total as `int(parts[0]) * 60 + int(parts[2])`. -/
def parseHM (s : String) : ℕ :=
  let parts := pySplit s
  parseNat (parts.getD 0 "") * 60 + parseNat (parts.getD 2 "")

/-! ### Moon phase -/

/-- Python float `%` with positive modulus 360: `x - 360 * floor (x/360)`,
always in `[0, 360)`. -/
def qmod360 (x : ℚ) : ℚ := x - 360 * ((⌊x / 360⌋ : ℤ) : ℚ)

/-- Function `moon_phase_icon` of `app.py` (lines 73-91), verbatim if-chain. -/
def moon_phase_icon (phase_deg : ℚ) : String :=
  let x := qmod360 phase_deg
  if x < 22.5 ∨ x ≥ 337.5 then "🌑"
  else if x < 67.5 then "🌒"
  else if x < 112.5 then "🌓"
  else if x < 157.5 then "🌔"
  else if x < 202.5 then "🌕"
  else if x < 247.5 then "🌖"
  else if x < 292.5 then "🌗"
  else "🌘"

/-! ### Crossing scans -/

/-- Consecutive-pair view used by the scans of `app.py`: element `i` is
`(alts[i], alts[i+1], times[i+1])`. -/
def pairs3 (alts : List ℚ) (times : List ℤ) : List (ℚ × ℚ × ℤ) :=
  alts.zip ((alts.drop 1).zip (times.drop 1))

/-- The first loop of `find_dark_crossings` (lines 149-159 of `app.py`),
carrying the Python loop state `(found_start, start_str, end_str)`; the
second branch `break`s by returning immediately. -/
def darkScan (fmt : ℤ → String) :
    List (ℚ × ℚ × ℤ) → Bool → String → String → String × String × Bool
  | [], found, s, e => (s, e, found)
  | (a, b, t) :: rest, found, s, e =>
    if a ≥ -18 ∧ b < -18 ∧ found = false then
      darkScan fmt rest true (fmt t) e
    else if a < -18 ∧ b ≥ -18 ∧ found = true ∧ e = "-" then
      (s, fmt t, found)
    else
      darkScan fmt rest found s e

/-- The fallback loop of `find_dark_crossings` (lines 162-167 of
`app.py`): first `< -18 → ≥ -18` crossing anywhere in the window. -/
def riseScan (fmt : ℤ → String) : List (ℚ × ℚ × ℤ) → String
  | [] => "-"
  | (a, b, t) :: rest =>
    if a < -18 ∧ b ≥ -18 then fmt t else riseScan fmt rest

/-- Function `find_dark_crossings(sun_alts, times_list, local_tz)` of `app.py`
(lines 138-169). -/
def find_dark_crossings (sun_alts : List ℚ) (times_list : List ℤ) (tz : TZ) :
    String × String :=
  match darkScan (localHHMM tz) (pairs3 sun_alts times_list) false "-" "-" with
  | (start_str, end_str, found_start) =>
    if found_start = true ∧ end_str = "-" then
      (start_str, riseScan (localHHMM tz) (pairs3 sun_alts times_list))
    else (start_str, end_str)

/-- The moonrise/moonset scan of `app.py` (lines 274-284): two
independent `if`s per step, each firing at most once, no break. -/
def moonScan (fmt : ℤ → String) :
    List (ℚ × ℚ × ℤ) → String → String → String × String
  | [], r, s => (r, s)
  | (a, b, t) :: rest, r, s =>
    let r' := if a < 0 ∧ b ≥ 0 ∧ r = "-" then fmt t else r
    let s' := if a ≥ 0 ∧ b < 0 ∧ s = "-" then fmt t else s
    moonScan fmt rest r' s'

/-! ### Per-day summation -/

/-- Pair view for the summation loop (lines 253-255 of `app.py`):
element `i` is `((sun_alts[i], sun_alts[i+1]), (moon_alts[i],
moon_alts[i+1]))`. -/
def pairs4 (sun moon : List ℚ) : List ((ℚ × ℚ) × ℚ × ℚ) :=
  (sun.zip (sun.drop 1)).zip (moon.zip (moon.drop 1))

/-- One iteration of the summation loop of `app.py` (lines 253-262):
midpoint thresholds, with the `moon_affect == "Ignore Moonlight"`
branch counting every dark step as moonless. -/
def darkAccum (opt : MoonOption) (step : ℕ) (acc : ℕ × ℕ)
    (p : (ℚ × ℚ) × ℚ × ℚ) : ℕ × ℕ :=
  let s_mid := (p.1.1 + p.1.2) / 2
  let m_mid := (p.2.1 + p.2.2) / 2
  if s_mid < -18 then
    ( acc.1 + step,
      if opt = MoonOption.ignoreMoonlight then acc.2 + step
      else if m_mid < 0 then acc.2 + step
      else acc.2 )
  else acc

/-- The summation loop of `app.py` (lines 250-262), producing
`(astro_minutes, moonless_minutes)`. -/
def sumDarkness (opt : MoonOption) (step : ℕ)
    (ps : List ((ℚ × ℚ) × ℚ × ℚ)) : ℕ × ℕ :=
  ps.foldl (darkAccum opt step) (0, 0)

/-! ### One day of `compute_day_details` -/

/-- Lines 223-234 of `app.py`: local midnight and next local midnight
are localized together; if either localization raises, both fall back
to `pytz.utc.localize`, so the UTC window start is the naive minute
count itself. Only the window start is used downstream (the computed
`end_utc` is never read). -/
def dayStartUtc (tz : TZ) (d : ℤ) : ℤ :=
  match tz.localize (d * 1440), tz.localize (d * 1440 + 1440) with
  | some a, some _ => a
  | _, _ => d * 1440

/-- Lines 287-293 of `app.py`: local noon of the labeled date,
localized, falling back to `pytz.utc.localize` on error. -/
def noonUtc (tz : TZ) (d : ℤ) : ℤ :=
  match tz.localize (d * 1440 + 720) with
  | some u => u
  | none => d * 1440 + 720

/-- Lines 236-240 of `app.py`: `step_count = (24*60)//step_minutes`
samples at `start_utc + i*step_minutes` for `i in range(step_count+1)`. -/
def sampleTimes (start_utc : ℤ) (step : ℕ) : List ℤ :=
  (List.range (24 * 60 / step + 1)).map (fun i => start_utc + (i * step : ℕ))

/-- The per-day record appended on lines 300-309 of `app.py`. The
`date` is kept as the day ordinal `d` (the code renders it
`"%Y-%m-%d"`); the two raw minute totals are kept alongside the
formatted strings they are rendered into. -/
structure DayResult where
  date : ℤ
  astroDarkMinutes : ℕ
  moonlessMinutes : ℕ
  astro_dark_hours : String
  moonless_hours : String
  dark_start : String
  dark_end : String
  moon_rise : String
  moon_set : String
  moon_phase : String
deriving DecidableEq

/-- The body of the day loop of `compute_day_details`
(lines 223-309 of `app.py`) for the day labeled `d`. -/
def computeOneDay (eph : Ephemeris) (tz : TZ) (d : ℤ) (opt : MoonOption)
    (step : ℕ) : DayResult :=
  let times := sampleTimes (dayStartUtc tz d) step
  let sunAlts := times.map eph.sunAlt
  let moonAlts := times.map eph.moonAlt
  let am := sumDarkness opt step (pairs4 sunAlts moonAlts)
  let ds := find_dark_crossings sunAlts times tz
  let rs := moonScan (localHHMM tz) (pairs3 moonAlts times) "-" "-"
  let phase := qmod360 (eph.moonEclLon (noonUtc tz d) - eph.sunEclLon (noonUtc tz d))
  { date := d
    astroDarkMinutes := am.1
    moonlessMinutes := am.2
    astro_dark_hours := formatHM am.1
    moonless_hours := formatHM am.2
    dark_start := if ds.1 = "" then "-" else ds.1
    dark_end := if ds.2 = "" then "-" else ds.2
    moon_rise := rs.1
    moon_set := rs.2
    moon_phase := moon_phase_icon phase }

/-- The day loop of `compute_day_details` (lines 207-215 and 300-312 of
`app.py`): `for _ in range(total_days)` with the `day_count >= MAX_DAYS`
break. -/
def dayLoop (eph : Ephemeris) (tz : TZ) (opt : MoonOption) (step : ℕ) :
    ℕ → ℤ → ℕ → List DayResult
  | 0, _, _ => []
  | rem + 1, current, day_count =>
    if MAX_DAYS ≤ day_count then []
    else
      computeOneDay eph tz current opt step ::
        dayLoop eph tz opt step rem (current + 1) (day_count + 1)

/-- Function `compute_day_details` of `app.py` (lines 174-321), with geography
abstracted into the ephemeris oracle and the timezone oracles
(`tzAt` is the `tf.timezone_at` result, `lookup` is `pytz.timezone`).
`total_days = (end_date - start_date).days + 1` (line 211). -/
def compute_day_details (eph : Ephemeris) (tzAt : Option String)
    (lookup : String → Option TZ) (start_d end_d : ℤ) (opt : MoonOption)
    (step : ℕ) : List DayResult :=
  let tz := resolveTz lookup tzAt
  let total_days := end_d - start_d + 1
  dayLoop eph tz opt step total_days.toNat start_d 0

/-! ### The caller boundary of `main` -/

/-- The validation gates of `main` around the call to
`compute_day_details`: the pre-button range check (lines 501-504), the
order check (lines 512-514) and the post-button range check
(lines 516-521) of `app.py`, in their source order. -/
def main_compute (eph : Ephemeris) (tzAt : Option String)
    (lookup : String → Option TZ) (start_d end_d : ℤ) (opt : MoonOption)
    (step : ℕ) : Except String (List DayResult) :=
  if end_d - start_d + 1 > (MAX_DAYS : ℤ) then
    Except.error ("Please pick 30 days or fewer.")
  else if start_d > end_d then
    Except.error ("Start date must be <= end date.")
  else if end_d - start_d + 1 > (MAX_DAYS : ℤ) then
    Except.error ("Selected range exceeds 30 days. Please select a range within 30 days.")
  else
    Except.ok (compute_day_details eph tzAt lookup start_d end_d opt step)

/-- The range-summation loop of `main` (lines 555-566 of `app.py`):
re-parse each day's formatted strings and accumulate
`(total_astro, total_moonless)`. -/
def range_totals (daily_data : List DayResult) : ℕ × ℕ :=
  daily_data.foldl
    (fun acc d =>
      (acc.1 + parseHM d.astro_dark_hours, acc.2 + parseHM d.moonless_hours))
    (0, 0)

/-! ### Spec-side predicates for the crossing claims -/

/-- A `pairs3` element that is a dark-start transition:
`sun_alts[i] ≥ -18` and `sun_alts[i+1] < -18`. -/
def isDownP (p : ℚ × ℚ × ℤ) : Bool := decide (p.1 ≥ -18 ∧ p.2.1 < -18)

/-- A `pairs3` element that is a dark-end transition:
`sun_alts[i] < -18` and `sun_alts[i+1] ≥ -18`. -/
def isUpP (p : ℚ × ℚ × ℤ) : Bool := decide (p.1 < -18 ∧ p.2.1 ≥ -18)

/-- A `pairs4` element whose midpoint Sun altitude is astro-dark. -/
def isDarkMid (p : (ℚ × ℚ) × ℚ × ℚ) : Bool :=
  decide ((p.1.1 + p.1.2) / 2 < -18)

/-- A `pairs4` element whose midpoint Moon altitude is below the
horizon. -/
def isMoonDownMid (p : (ℚ × ℚ) × ℚ × ℚ) : Bool :=
  decide ((p.2.1 + p.2.2) / 2 < 0)

/-- The sub-intervals counted as moonless by the summation loop, per
option. -/
def moonlessPred (opt : MoonOption) (p : (ℚ × ℚ) × ℚ × ℚ) : Bool :=
  match opt with
  | MoonOption.ignoreMoonlight => isDarkMid p
  | MoonOption.includeMoonlight => isDarkMid p && isMoonDownMid p

/-- A constant test ephemeris: Sun always at -30° (always astro-dark),
Moon always at +45° (always up), both ecliptic longitudes 0°. -/
def constEph : Ephemeris :=
  ⟨fun _ => -30, fun _ => 45, fun _ => 0, fun _ => 0⟩

/-- A pytz-style lookup that knows only the name `"UTC"`, as suffices
for the fallback path. -/
def utcLookup : String → Option TZ :=
  fun n => if n = "UTC" then some utcTZ else none

/-! ## String and digit lemmas -/

/-- Value of a little-endian digit list. -/
def ofDigitsLE : List ℕ → ℕ
  | [] => 0
  | d :: ds => d + 10 * ofDigitsLE ds

theorem strData_append (a b : String) : (a ++ b).data = a.data ++ b.data := rfl

theorem digitsAux_lt (fuel n : ℕ) : ∀ d ∈ digitsAux fuel n, d < 10 := by
  induction fuel generalizing n with
  | zero => simp [digitsAux]
  | succ f ih =>
    cases n with
    | zero => simp [digitsAux]
    | succ m =>
      intro d hd
      simp only [digitsAux, List.mem_cons] at hd
      rcases hd with h | h
      · subst h
        exact Nat.mod_lt _ (by omega)
      · exact ih _ d h

theorem ofDigitsLE_digitsAux (fuel n : ℕ) (h : n ≤ fuel) :
    ofDigitsLE (digitsAux fuel n) = n := by
  induction fuel generalizing n with
  | zero => interval_cases n; simp [digitsAux, ofDigitsLE]
  | succ f ih =>
    cases n with
    | zero => simp [digitsAux, ofDigitsLE]
    | succ m =>
      have hdiv : (m + 1) / 10 ≤ f := by
        have h1 : (m + 1) / 10 < m + 1 := Nat.div_lt_self (Nat.succ_pos m) (by omega)
        omega
      simp only [digitsAux, ofDigitsLE, ih _ hdiv]
      omega

theorem digitsAux_ne_nil (fuel n : ℕ) (hn : n ≠ 0) (h : n ≤ fuel) :
    digitsAux fuel n ≠ [] := by
  cases fuel with
  | zero => omega
  | succ f =>
    cases n with
    | zero => omega
    | succ m => simp [digitsAux]

theorem digitChr_toNat (d : ℕ) (h : d < 10) : (digitChr d).toNat = 48 + d := by
  interval_cases d <;> decide

theorem digitChr_ne_space (d : ℕ) (h : d < 10) : digitChr d ≠ ' ' := by
  interval_cases d <;> decide

/-- Folding the parser over rendered digits equals the Horner fold over
the digits themselves. -/
theorem foldl_digitChr (L : List ℕ) (hL : ∀ d ∈ L, d < 10) (acc : ℕ) :
    (L.map digitChr).foldl (fun a c => a * 10 + (c.toNat - 48)) acc =
      L.foldl (fun a d => a * 10 + d) acc := by
  induction L generalizing acc with
  | nil => rfl
  | cons d ds ih =>
    have hd : d < 10 := hL d (List.mem_cons_self d ds)
    simp only [List.map_cons, List.foldl_cons, digitChr_toNat d hd]
    rw [ih (fun x hx => hL x (List.mem_cons_of_mem d hx))]
    congr 1
    omega

theorem foldr_horner (M : List ℕ) (acc : ℕ) :
    M.foldr (fun d a => a * 10 + d) acc =
      acc * 10 ^ M.length + ofDigitsLE M := by
  induction M with
  | nil => simp [ofDigitsLE]
  | cons d ds ih =>
    simp only [List.foldr_cons, ih, ofDigitsLE, List.length_cons]
    ring

theorem parseNat_natStr (n : ℕ) : parseNat (natStr n) = n := by
  by_cases h0 : n = 0
  · subst h0; decide
  · have hlt : ∀ d ∈ (digitsAux n n).reverse, d < 10 := by
      intro d hd
      exact digitsAux_lt n n d (List.mem_reverse.mp hd)
    unfold parseNat natStr
    rw [if_neg h0]
    show ((((digitsAux n n).reverse).map digitChr).foldl
        (fun a c => a * 10 + (c.toNat - 48)) 0) = n
    rw [foldl_digitChr _ hlt 0, List.foldl_reverse, foldr_horner]
    simp [ofDigitsLE_digitsAux n n (le_refl n)]

theorem natStr_data_ne_nil (n : ℕ) : (natStr n).data ≠ [] := by
  by_cases h0 : n = 0
  · subst h0; decide
  · unfold natStr
    rw [if_neg h0]
    show (((digitsAux n n).reverse).map digitChr) ≠ []
    simp only [ne_eq, List.map_eq_nil_iff, List.reverse_eq_nil_iff]
    exact digitsAux_ne_nil n n h0 (le_refl n)

theorem natStr_no_space (n : ℕ) : ∀ c ∈ (natStr n).data, c ≠ ' ' := by
  by_cases h0 : n = 0
  · subst h0; decide
  · unfold natStr
    rw [if_neg h0]
    intro c hc
    show c ≠ ' '
    have : c ∈ ((digitsAux n n).reverse).map digitChr := hc
    rcases List.mem_map.mp this with ⟨d, hd, rfl⟩
    exact digitChr_ne_space d (digitsAux_lt n n d (List.mem_reverse.mp hd))

/-- Splitting consumes one full non-space word up to a space. -/
theorem wordsAux_word (cs : List Char) :
    ∀ (rest w : List Char), (∀ c ∈ cs, c ≠ ' ') → (w ≠ [] ∨ cs ≠ []) →
      wordsAux (cs ++ ' ' :: rest) w =
        String.mk (w.reverse ++ cs) :: wordsAux rest [] := by
  induction cs with
  | nil =>
    intro rest w _ hne
    have hw : w ≠ [] := by
      rcases hne with h | h
      · exact h
      · exact absurd rfl h
    simp [wordsAux, hw]
  | cons c cs' ih =>
    intro rest w hcs _
    have hc : c ≠ ' ' := hcs c (List.mem_cons_self c cs')
    have hcs' : ∀ x ∈ cs', x ≠ ' ' := fun x hx => hcs x (List.mem_cons_of_mem c hx)
    rw [List.cons_append]
    simp only [wordsAux, if_neg hc]
    have hrec := ih rest (c :: w) hcs' (Or.inl (by simp))
    refine hrec.trans ?_
    have harr : (c :: w).reverse ++ cs' = w.reverse ++ c :: cs' := by simp
    rw [harr]

/-- Splitting a trailing non-space word. -/
theorem wordsAux_last (cs : List Char) :
    ∀ (w : List Char), (∀ c ∈ cs, c ≠ ' ') → (w ≠ [] ∨ cs ≠ []) →
      wordsAux cs w = [String.mk (w.reverse ++ cs)] := by
  induction cs with
  | nil =>
    intro w _ hne
    have hw : w ≠ [] := by
      rcases hne with h | h
      · exact h
      · exact absurd rfl h
    cases w with
    | nil => exact absurd rfl hw
    | cons a as => simp [wordsAux]
  | cons c cs' ih =>
    intro w hcs _
    have hc : c ≠ ' ' := hcs c (List.mem_cons_self c cs')
    have hcs' : ∀ x ∈ cs', x ≠ ' ' := fun x hx => hcs x (List.mem_cons_of_mem c hx)
    simp only [wordsAux, if_neg hc]
    have hrec := ih (c :: w) hcs' (Or.inl (by simp))
    refine hrec.trans ?_
    have harr : (c :: w).reverse ++ cs' = w.reverse ++ c :: cs' := by simp
    rw [harr]

theorem pySplit_formatHM (n : ℕ) :
    pySplit (formatHM n) =
      [natStr (n / 60), "Hours", natStr (n % 60), "Minutes"] := by
  have hda : (formatHM n).data =
      (natStr (n / 60)).data ++ ' ' ::
        (("Hours").data ++ ' ' ::
          ((natStr (n % 60)).data ++ ' ' :: ("Minutes").data)) := by
    unfold formatHM
    simp [strData_append, List.append_assoc]
  unfold pySplit
  rw [hda]
  rw [wordsAux_word _ _ [] (natStr_no_space _) (Or.inr (natStr_data_ne_nil _))]
  rw [wordsAux_word _ _ [] (by decide) (Or.inr (by decide))]
  rw [wordsAux_word _ _ [] (natStr_no_space _) (Or.inr (natStr_data_ne_nil _))]
  rw [wordsAux_last _ [] (by decide) (Or.inr (by decide))]
  simp

theorem parseHM_formatHM (n : ℕ) : parseHM (formatHM n) = n := by
  unfold parseHM
  rw [pySplit_formatHM]
  show parseNat (natStr (n / 60)) * 60 + parseNat (natStr (n % 60)) = n
  rw [parseNat_natStr, parseNat_natStr]
  omega

theorem pad2_data_ne_nil (n : ℕ) : (pad2 n).data ≠ [] := by
  unfold pad2
  split
  · show (("0" : String) ++ natStr n).data ≠ []
    rw [strData_append]
    simp
  · exact natStr_data_ne_nil n

theorem localHHMM_ne_dash (tz : TZ) (t : ℤ) : localHHMM tz t ≠ "-" := by
  intro h
  have hd : (pad2 ((tz.fromUtc t % 1440).toNat / 60)).data ++
      (":" : String).data ++ (pad2 ((tz.fromUtc t % 1440).toNat % 60)).data =
      ("-" : String).data := by
    rw [← strData_append, ← strData_append]
    exact congrArg String.data h
  have h1 := List.length_pos.mpr (pad2_data_ne_nil ((tz.fromUtc t % 1440).toNat / 60))
  have h2 := List.length_pos.mpr (pad2_data_ne_nil ((tz.fromUtc t % 1440).toNat % 60))
  have hlen := congrArg List.length hd
  rw [List.length_append, List.length_append] at hlen
  have hcolon : ((":" : String).data).length = 1 := rfl
  have hdash : (("-" : String).data).length = 1 := rfl
  rw [hcolon, hdash] at hlen
  omega

/-! ## Crossing-scan characterizations -/

/-- Once `found_start` is set, the first loop of `find_dark_crossings`
returns the first up-crossing of the remaining pairs (or leaves the
sentinel). -/
theorem darkScan_found (fmt : ℤ → String) :
    ∀ (ps : List (ℚ × ℚ × ℤ)) (s : String),
      darkScan fmt ps true s "-" =
        (s,
         (match ps.find? isUpP with
          | some q => fmt q.2.2
          | none => "-"),
         true) := by
  intro ps
  induction ps with
  | nil => intro s; rfl
  | cons p rest ih =>
    intro s
    obtain ⟨a, b, t⟩ := p
    by_cases hup : a < -18 ∧ b ≥ -18
    · simp only [darkScan]
      rw [if_neg (by simp), if_pos (by exact ⟨hup.1, hup.2, by trivial, by trivial⟩)]
      have hb : isUpP (a, b, t) = true := by
        simp only [isUpP, decide_eq_true_eq]
        exact ⟨hup.1, hup.2⟩
      simp [List.find?, hb]
    · simp only [darkScan]
      rw [if_neg (by simp), if_neg (fun hc => hup ⟨hc.1, hc.2.1⟩)]
      rw [ih s]
      have hb : isUpP (a, b, t) = false := by
        simp only [isUpP, decide_eq_false_iff_not]
        exact hup
      simp [List.find?, hb]

/-- Full characterization of the first loop of `find_dark_crossings`
started in its initial state. -/
theorem darkScan_main (fmt : ℤ → String) :
    ∀ ps : List (ℚ × ℚ × ℤ),
      darkScan fmt ps false "-" "-" =
        match ps.findIdx? isDownP with
        | none => ("-", "-", false)
        | some j =>
          (fmt ((ps.getD j default).2.2),
           (match (ps.drop (j + 1)).find? isUpP with
            | some q => fmt q.2.2
            | none => "-"),
           true) := by
  intro ps
  induction ps with
  | nil => rfl
  | cons p rest ih =>
    obtain ⟨a, b, t⟩ := p
    by_cases hdown : a ≥ -18 ∧ b < -18
    · simp only [darkScan]
      rw [if_pos (by exact ⟨hdown.1, hdown.2, by trivial⟩)]
      rw [darkScan_found fmt rest (fmt t)]
      have hb : isDownP (a, b, t) = true := by
        simp only [isDownP, decide_eq_true_eq]
        exact ⟨hdown.1, hdown.2⟩
      simp [List.findIdx?_cons, hb]
    · have hb : isDownP (a, b, t) = false := by
        simp only [isDownP, decide_eq_false_iff_not]
        exact hdown
      simp only [darkScan]
      rw [if_neg (fun hc => hdown ⟨hc.1, hc.2.1⟩)]
      rw [if_neg (by rintro ⟨_, _, hff, _⟩; simp at hff)]
      rw [ih]
      cases hfi : rest.findIdx? isDownP with
      | none => simp [List.findIdx?_cons, hb, hfi]
      | some j => simp [List.findIdx?_cons, hb, hfi]

/-- The fallback loop is the first up-crossing of the whole pair list. -/
theorem riseScan_eq (fmt : ℤ → String) :
    ∀ ps : List (ℚ × ℚ × ℤ),
      riseScan fmt ps =
        match ps.find? isUpP with
        | some q => fmt q.2.2
        | none => "-" := by
  intro ps
  induction ps with
  | nil => rfl
  | cons p rest ih =>
    obtain ⟨a, b, t⟩ := p
    by_cases hup : a < -18 ∧ b ≥ -18
    · have hb : isUpP (a, b, t) = true := by
        simp only [isUpP, decide_eq_true_eq]
        exact ⟨hup.1, hup.2⟩
      simp [riseScan, if_pos hup, List.find?, hb]
    · have hb : isUpP (a, b, t) = false := by
        simp only [isUpP, decide_eq_false_iff_not]
        exact hup
      simp [riseScan, if_neg hup, List.find?, hb, ih]

/-- Closed-form description of `find_dark_crossings`: `dark_start` is
the first `≥ -18 → < -18` transition (timestamped at the later sample);
`dark_end` is the first `< -18 → ≥ -18` transition after it if one
exists, otherwise the first such transition anywhere in the window
(the code's documented next-day fallback), otherwise the sentinel. -/
theorem find_dark_crossings_eq (alts : List ℚ) (times : List ℤ) (tz : TZ) :
    find_dark_crossings alts times tz =
      ((match (pairs3 alts times).findIdx? isDownP with
        | none => "-"
        | some j => localHHMM tz (((pairs3 alts times).getD j default).2.2)),
       (match (pairs3 alts times).findIdx? isDownP with
        | none => "-"
        | some j =>
          match ((pairs3 alts times).drop (j + 1)).find? isUpP with
          | some q => localHHMM tz q.2.2
          | none =>
            match (pairs3 alts times).find? isUpP with
            | some q => localHHMM tz q.2.2
            | none => "-")) := by
  have hfmt : ∀ t, localHHMM tz t ≠ "-" := localHHMM_ne_dash tz
  unfold find_dark_crossings
  rw [darkScan_main (localHHMM tz) (pairs3 alts times)]
  cases hfi : (pairs3 alts times).findIdx? isDownP with
  | none => rfl
  | some j =>
    cases hdr : ((pairs3 alts times).drop (j + 1)).find? isUpP with
    | none => simp [hdr, riseScan_eq (localHHMM tz) (pairs3 alts times)]
    | some q => simp [hdr, hfmt q.2.2]

/-! ## Summation characterization -/

/-- The summation loop computes `step` times the count of dark
midpoints, and `step` times the count of moonless midpoints as selected
by the option. -/
theorem foldl_darkAccum (opt : MoonOption) (step : ℕ) :
    ∀ (ps : List ((ℚ × ℚ) × ℚ × ℚ)) (acc : ℕ × ℕ),
      ps.foldl (darkAccum opt step) acc =
        (acc.1 + step * ps.countP isDarkMid,
         acc.2 + step * ps.countP (moonlessPred opt)) := by
  intro ps
  induction ps with
  | nil => intro acc; simp
  | cons p rest ih =>
    intro acc
    rw [List.foldl_cons, ih]
    cases opt with
    | ignoreMoonlight =>
      by_cases hs : (p.1.1 + p.1.2) / 2 < -18
      · have hd : isDarkMid p = true := by
          simp only [isDarkMid, decide_eq_true_eq]; exact hs
        have hm : moonlessPred MoonOption.ignoreMoonlight p = true := hd
        simp [darkAccum, if_pos hs, List.countP_cons, hd, hm,
          Prod.mk.injEq, Nat.mul_add]
        all_goals omega
      · have hd : isDarkMid p = false := by
          simp only [isDarkMid, decide_eq_false_iff_not]; exact hs
        have hm : moonlessPred MoonOption.ignoreMoonlight p = false := hd
        simp [darkAccum, if_neg hs, List.countP_cons, hd, hm]
    | includeMoonlight =>
      by_cases hs : (p.1.1 + p.1.2) / 2 < -18
      · have hd : isDarkMid p = true := by
          simp only [isDarkMid, decide_eq_true_eq]; exact hs
        by_cases hmo : (p.2.1 + p.2.2) / 2 < 0
        · have hmd : isMoonDownMid p = true := by
            simp only [isMoonDownMid, decide_eq_true_eq]; exact hmo
          have hm : moonlessPred MoonOption.includeMoonlight p = true := by
            simp [moonlessPred, hd, hmd]
          simp [darkAccum, if_pos hs, if_pos hmo, List.countP_cons, hd, hm,
            Prod.mk.injEq, Nat.mul_add]
          all_goals omega
        · have hmd : isMoonDownMid p = false := by
            simp only [isMoonDownMid, decide_eq_false_iff_not]; exact hmo
          have hm : moonlessPred MoonOption.includeMoonlight p = false := by
            simp [moonlessPred, hd, hmd]
          simp [darkAccum, if_pos hs, if_neg hmo, List.countP_cons, hd, hm,
            Prod.mk.injEq, Nat.mul_add]
          all_goals omega
      · have hd : isDarkMid p = false := by
          simp only [isDarkMid, decide_eq_false_iff_not]; exact hs
        have hm : moonlessPred MoonOption.includeMoonlight p = false := by
          simp [moonlessPred, hd]
        simp [darkAccum, if_neg hs, List.countP_cons, hd, hm]

theorem sumDarkness_eq (opt : MoonOption) (step : ℕ)
    (ps : List ((ℚ × ℚ) × ℚ × ℚ)) :
    sumDarkness opt step ps =
      (step * ps.countP isDarkMid, step * ps.countP (moonlessPred opt)) := by
  unfold sumDarkness
  rw [foldl_darkAccum]
  simp

/-! ## Per-day record lemmas -/

theorem computeOneDay_date (eph : Ephemeris) (tz : TZ) (d : ℤ)
    (opt : MoonOption) (step : ℕ) :
    (computeOneDay eph tz d opt step).date = d := rfl

theorem computeOneDay_astro_format (eph : Ephemeris) (tz : TZ) (d : ℤ)
    (opt : MoonOption) (step : ℕ) :
    (computeOneDay eph tz d opt step).astro_dark_hours =
      formatHM ((computeOneDay eph tz d opt step).astroDarkMinutes) := rfl

theorem computeOneDay_moonless_format (eph : Ephemeris) (tz : TZ) (d : ℤ)
    (opt : MoonOption) (step : ℕ) :
    (computeOneDay eph tz d opt step).moonless_hours =
      formatHM ((computeOneDay eph tz d opt step).moonlessMinutes) := rfl

theorem computeOneDay_moon_phase (eph : Ephemeris) (tz : TZ) (d : ℤ)
    (opt : MoonOption) (step : ℕ) :
    (computeOneDay eph tz d opt step).moon_phase =
      moon_phase_icon
        (qmod360 (eph.moonEclLon (noonUtc tz d) - eph.sunEclLon (noonUtc tz d))) := rfl

theorem computeOneDay_astro_minutes (eph : Ephemeris) (tz : TZ) (d : ℤ)
    (opt : MoonOption) (step : ℕ) :
    (computeOneDay eph tz d opt step).astroDarkMinutes =
      step * ((pairs4 ((sampleTimes (dayStartUtc tz d) step).map eph.sunAlt)
        ((sampleTimes (dayStartUtc tz d) step).map eph.moonAlt)).countP isDarkMid) := by
  show (sumDarkness opt step
    (pairs4 ((sampleTimes (dayStartUtc tz d) step).map eph.sunAlt)
      ((sampleTimes (dayStartUtc tz d) step).map eph.moonAlt))).1 = _
  rw [sumDarkness_eq]

theorem computeOneDay_moonless_minutes (eph : Ephemeris) (tz : TZ) (d : ℤ)
    (opt : MoonOption) (step : ℕ) :
    (computeOneDay eph tz d opt step).moonlessMinutes =
      step * ((pairs4 ((sampleTimes (dayStartUtc tz d) step).map eph.sunAlt)
        ((sampleTimes (dayStartUtc tz d) step).map eph.moonAlt)).countP
          (moonlessPred opt)) := by
  show (sumDarkness opt step
    (pairs4 ((sampleTimes (dayStartUtc tz d) step).map eph.sunAlt)
      ((sampleTimes (dayStartUtc tz d) step).map eph.moonAlt))).2 = _
  rw [sumDarkness_eq]

theorem sampleTimes_length (start_utc : ℤ) (step : ℕ) :
    (sampleTimes start_utc step).length = 24 * 60 / step + 1 := by
  simp [sampleTimes]

theorem computeOneDay_moonless_le (eph : Ephemeris) (tz : TZ) (d : ℤ)
    (opt : MoonOption) (step : ℕ) :
    (computeOneDay eph tz d opt step).moonlessMinutes ≤
      (computeOneDay eph tz d opt step).astroDarkMinutes := by
  rw [computeOneDay_astro_minutes, computeOneDay_moonless_minutes]
  refine Nat.mul_le_mul_left step ?_
  refine List.countP_mono_left ?_
  intro p _ hp
  cases opt with
  | ignoreMoonlight => exact hp
  | includeMoonlight =>
    have hb : (isDarkMid p && isMoonDownMid p) = true := hp
    exact (Bool.and_eq_true _ _ |>.mp hb).1

theorem computeOneDay_astro_le (eph : Ephemeris) (tz : TZ) (d : ℤ)
    (opt : MoonOption) (step : ℕ) :
    (computeOneDay eph tz d opt step).astroDarkMinutes ≤ 1440 := by
  rw [computeOneDay_astro_minutes]
  have hlen : (pairs4 ((sampleTimes (dayStartUtc tz d) step).map eph.sunAlt)
      ((sampleTimes (dayStartUtc tz d) step).map eph.moonAlt)).length = 24 * 60 / step := by
    simp [pairs4, sampleTimes, List.length_zip, List.length_drop]
  calc step * ((pairs4 ((sampleTimes (dayStartUtc tz d) step).map eph.sunAlt)
        ((sampleTimes (dayStartUtc tz d) step).map eph.moonAlt)).countP isDarkMid)
      ≤ step * (pairs4 ((sampleTimes (dayStartUtc tz d) step).map eph.sunAlt)
        ((sampleTimes (dayStartUtc tz d) step).map eph.moonAlt)).length :=
        Nat.mul_le_mul_left step (List.countP_le_length _)
    _ = step * (24 * 60 / step) := by rw [hlen]
    _ = (24 * 60 / step) * step := Nat.mul_comm _ _
    _ ≤ 24 * 60 := Nat.div_mul_le_self _ _
    _ = 1440 := by norm_num

/-! ## Day-loop lemmas -/

theorem dayLoop_eq (eph : Ephemeris) (tz : TZ) (opt : MoonOption) (step : ℕ) :
    ∀ (rem : ℕ) (cur : ℤ) (dc : ℕ),
      dayLoop eph tz opt step rem cur dc =
        (List.range (min rem (MAX_DAYS - dc))).map
          (fun k : ℕ => computeOneDay eph tz (cur + (k : ℤ)) opt step) := by
  intro rem
  induction rem with
  | zero => intro cur dc; simp [dayLoop]
  | succ r ih =>
    intro cur dc
    by_cases hdc : MAX_DAYS ≤ dc
    · have h0 : min (r + 1) (MAX_DAYS - dc) = 0 := by omega
      simp [dayLoop, if_pos hdc, h0]
    · have hmin : min (r + 1) (MAX_DAYS - dc) = (min r (MAX_DAYS - (dc + 1))) + 1 := by
        omega
      simp only [dayLoop, if_neg hdc]
      rw [ih (cur + 1) (dc + 1), hmin, List.range_succ_eq_map]
      simp only [List.map_cons, List.map_map]
      refine congrArg₂ List.cons (by norm_num) ?_
      refine List.map_congr_left ?_
      intro k _
      show computeOneDay eph tz (cur + 1 + (k : ℤ)) opt step =
        computeOneDay eph tz (cur + ((k + 1 : ℕ) : ℤ)) opt step
      have harith : cur + 1 + (k : ℤ) = cur + ((k + 1 : ℕ) : ℤ) := by push_cast; ring
      rw [harith]

theorem compute_day_details_eq (eph : Ephemeris) (tzAt : Option String)
    (lookup : String → Option TZ) (start_d end_d : ℤ) (opt : MoonOption)
    (step : ℕ) :
    compute_day_details eph tzAt lookup start_d end_d opt step =
      (List.range (min (end_d - start_d + 1).toNat MAX_DAYS)).map
        (fun k : ℕ => computeOneDay eph (resolveTz lookup tzAt) (start_d + (k : ℤ)) opt step) := by
  unfold compute_day_details
  rw [dayLoop_eq]
  norm_num

theorem compute_day_details_mem (eph : Ephemeris) (tzAt : Option String)
    (lookup : String → Option TZ) (start_d end_d : ℤ) (opt : MoonOption)
    (step : ℕ) (r : DayResult)
    (hr : r ∈ compute_day_details eph tzAt lookup start_d end_d opt step) :
    ∃ k : ℕ, r = computeOneDay eph (resolveTz lookup tzAt) (start_d + k) opt step := by
  rw [compute_day_details_eq] at hr
  rcases List.mem_map.mp hr with ⟨k, _, hk⟩
  exact ⟨k, hk.symm⟩

/-! ## Sample-grid lemmas -/

theorem sampleTimes_getD (start_utc : ℤ) (step : ℕ) (k : ℕ)
    (hk : k < 24 * 60 / step + 1) :
    (sampleTimes start_utc step).getD k 0 = start_utc + ((k * step : ℕ) : ℤ) := by
  unfold sampleTimes
  rw [List.getD_eq_getElem?_getD, List.getElem?_map, List.getElem?_range hk]
  rfl

theorem sampleTimes_getLast (start_utc : ℤ) (step : ℕ) :
    (sampleTimes start_utc step).getLast? =
      some (start_utc + ((24 * 60 / step * step : ℕ) : ℤ)) := by
  unfold sampleTimes
  rw [List.range_succ, List.map_append]
  simp

/-! ## Moon-phase lemmas -/

theorem qmod360_nonneg (x : ℚ) : 0 ≤ qmod360 x := by
  unfold qmod360
  have h := Int.floor_le (x / 360)
  have h2 := mul_le_mul_of_nonneg_left h (show (0:ℚ) ≤ 360 by norm_num)
  have hx : (360:ℚ) * (x / 360) = x := by field_simp
  linarith

theorem qmod360_lt (x : ℚ) : qmod360 x < 360 := by
  unfold qmod360
  have h := Int.lt_floor_add_one (x / 360)
  have h2 := mul_lt_mul_of_pos_left h (show (0:ℚ) < 360 by norm_num)
  have hx : (360:ℚ) * (x / 360) = x := by field_simp
  have h3 : (360:ℚ) * (((⌊x / 360⌋ : ℤ) : ℚ) + 1) =
      360 * ((⌊x / 360⌋ : ℤ) : ℚ) + 360 := by ring
  linarith

theorem qmod360_eq_self (x : ℚ) (h0 : 0 ≤ x) (h1 : x < 360) : qmod360 x = x := by
  unfold qmod360
  have hf : ⌊x / 360⌋ = 0 := by
    rw [Int.floor_eq_zero_iff, Set.mem_Ico]
    constructor
    · positivity
    · rw [div_lt_one (by norm_num)]
      exact h1
  rw [hf]
  simp

theorem icon_mem (p : ℚ) :
    moon_phase_icon p ∈
      (["🌑", "🌒", "🌓", "🌔", "🌕", "🌖", "🌗", "🌘"] : List String) := by
  dsimp only [moon_phase_icon]
  split_ifs <;> simp

theorem icon_idem (p : ℚ) :
    moon_phase_icon p = moon_phase_icon (qmod360 p) := by
  have h : qmod360 (qmod360 p) = qmod360 p :=
    qmod360_eq_self _ (qmod360_nonneg p) (qmod360_lt p)
  unfold moon_phase_icon
  rw [h]

theorem icon_new_low (x : ℚ) (h0 : 0 ≤ x) (h1 : x < 22.5) :
    moon_phase_icon x = "🌑" := by
  have h360 : x < 360 := by
    have : (22.5:ℚ) < 360 := by norm_num
    linarith
  unfold moon_phase_icon
  rw [qmod360_eq_self x h0 h360, if_pos (Or.inl h1)]

theorem icon_new_high (x : ℚ) (h0 : 337.5 ≤ x) (h1 : x < 360) :
    moon_phase_icon x = "🌑" := by
  unfold moon_phase_icon
  have hge : (0:ℚ) ≤ x := by
    have : (0:ℚ) ≤ 337.5 := by norm_num
    linarith
  rw [qmod360_eq_self x hge h1, if_pos (Or.inr h0)]

theorem icon_wax_crescent (x : ℚ) (h0 : 22.5 ≤ x) (h1 : x < 67.5) :
    moon_phase_icon x = "🌒" := by
  have hge : (0:ℚ) ≤ x := by
    have : (0:ℚ) ≤ 22.5 := by norm_num
    linarith
  have h360 : x < 360 := by
    have : (67.5:ℚ) < 360 := by norm_num
    linarith
  unfold moon_phase_icon
  rw [qmod360_eq_self x hge h360]
  rw [if_neg (by push_neg; exact ⟨h0, by linarith [show (67.5:ℚ) < 337.5 by norm_num]⟩)]
  rw [if_pos h1]

theorem icon_first_quarter (x : ℚ) (h0 : 67.5 ≤ x) (h1 : x < 112.5) :
    moon_phase_icon x = "🌓" := by
  have hge : (0:ℚ) ≤ x := by
    have : (0:ℚ) ≤ 67.5 := by norm_num
    linarith
  have h360 : x < 360 := by
    have : (112.5:ℚ) < 360 := by norm_num
    linarith
  unfold moon_phase_icon
  rw [qmod360_eq_self x hge h360]
  rw [if_neg (by
    push_neg
    refine ⟨by linarith [show (22.5:ℚ) ≤ 67.5 by norm_num], ?_⟩
    linarith [show (112.5:ℚ) < 337.5 by norm_num])]
  rw [if_neg (by linarith), if_pos h1]

theorem icon_wax_gibbous (x : ℚ) (h0 : 112.5 ≤ x) (h1 : x < 157.5) :
    moon_phase_icon x = "🌔" := by
  have hge : (0:ℚ) ≤ x := by
    have : (0:ℚ) ≤ 112.5 := by norm_num
    linarith
  have h360 : x < 360 := by
    have : (157.5:ℚ) < 360 := by norm_num
    linarith
  unfold moon_phase_icon
  rw [qmod360_eq_self x hge h360]
  rw [if_neg (by
    push_neg
    refine ⟨by linarith [show (22.5:ℚ) ≤ 112.5 by norm_num], ?_⟩
    linarith [show (157.5:ℚ) < 337.5 by norm_num])]
  rw [if_neg (by linarith [show (67.5:ℚ) ≤ 112.5 by norm_num])]
  rw [if_neg (by linarith), if_pos h1]

theorem icon_full (x : ℚ) (h0 : 157.5 ≤ x) (h1 : x < 202.5) :
    moon_phase_icon x = "🌕" := by
  have hge : (0:ℚ) ≤ x := by
    have : (0:ℚ) ≤ 157.5 := by norm_num
    linarith
  have h360 : x < 360 := by
    have : (202.5:ℚ) < 360 := by norm_num
    linarith
  unfold moon_phase_icon
  rw [qmod360_eq_self x hge h360]
  rw [if_neg (by
    push_neg
    refine ⟨by linarith [show (22.5:ℚ) ≤ 157.5 by norm_num], ?_⟩
    linarith [show (202.5:ℚ) < 337.5 by norm_num])]
  rw [if_neg (by linarith [show (67.5:ℚ) ≤ 157.5 by norm_num])]
  rw [if_neg (by linarith [show (112.5:ℚ) ≤ 157.5 by norm_num])]
  rw [if_neg (by linarith), if_pos h1]

theorem icon_wan_gibbous (x : ℚ) (h0 : 202.5 ≤ x) (h1 : x < 247.5) :
    moon_phase_icon x = "🌖" := by
  have hge : (0:ℚ) ≤ x := by
    have : (0:ℚ) ≤ 202.5 := by norm_num
    linarith
  have h360 : x < 360 := by
    have : (247.5:ℚ) < 360 := by norm_num
    linarith
  unfold moon_phase_icon
  rw [qmod360_eq_self x hge h360]
  rw [if_neg (by
    push_neg
    refine ⟨by linarith [show (22.5:ℚ) ≤ 202.5 by norm_num], ?_⟩
    linarith [show (247.5:ℚ) < 337.5 by norm_num])]
  rw [if_neg (by linarith [show (67.5:ℚ) ≤ 202.5 by norm_num])]
  rw [if_neg (by linarith [show (112.5:ℚ) ≤ 202.5 by norm_num])]
  rw [if_neg (by linarith [show (157.5:ℚ) ≤ 202.5 by norm_num])]
  rw [if_neg (by linarith), if_pos h1]

theorem icon_last_quarter (x : ℚ) (h0 : 247.5 ≤ x) (h1 : x < 292.5) :
    moon_phase_icon x = "🌗" := by
  have hge : (0:ℚ) ≤ x := by
    have : (0:ℚ) ≤ 247.5 := by norm_num
    linarith
  have h360 : x < 360 := by
    have : (292.5:ℚ) < 360 := by norm_num
    linarith
  unfold moon_phase_icon
  rw [qmod360_eq_self x hge h360]
  rw [if_neg (by
    push_neg
    refine ⟨by linarith [show (22.5:ℚ) ≤ 247.5 by norm_num], ?_⟩
    linarith [show (292.5:ℚ) < 337.5 by norm_num])]
  rw [if_neg (by linarith [show (67.5:ℚ) ≤ 247.5 by norm_num])]
  rw [if_neg (by linarith [show (112.5:ℚ) ≤ 247.5 by norm_num])]
  rw [if_neg (by linarith [show (157.5:ℚ) ≤ 247.5 by norm_num])]
  rw [if_neg (by linarith [show (202.5:ℚ) ≤ 247.5 by norm_num])]
  rw [if_neg (by linarith), if_pos h1]

theorem icon_wan_crescent (x : ℚ) (h0 : 292.5 ≤ x) (h1 : x < 337.5) :
    moon_phase_icon x = "🌘" := by
  have hge : (0:ℚ) ≤ x := by
    have : (0:ℚ) ≤ 292.5 := by norm_num
    linarith
  have h360 : x < 360 := by
    have : (337.5:ℚ) < 360 := by norm_num
    linarith
  unfold moon_phase_icon
  rw [qmod360_eq_self x hge h360]
  rw [if_neg (by push_neg; exact ⟨by linarith [show (22.5:ℚ) ≤ 292.5 by norm_num],
    by linarith⟩)]
  rw [if_neg (by linarith [show (67.5:ℚ) ≤ 292.5 by norm_num])]
  rw [if_neg (by linarith [show (112.5:ℚ) ≤ 292.5 by norm_num])]
  rw [if_neg (by linarith [show (157.5:ℚ) ≤ 292.5 by norm_num])]
  rw [if_neg (by linarith [show (202.5:ℚ) ≤ 292.5 by norm_num])]
  rw [if_neg (by linarith [show (247.5:ℚ) ≤ 292.5 by norm_num])]
  rw [if_neg (by linarith)]

/-! ## Range-summation lemmas -/

theorem range_totals_aux :
    ∀ (l : List DayResult),
      (∀ r ∈ l, r.astro_dark_hours = formatHM r.astroDarkMinutes) →
      ∀ acc : ℕ × ℕ,
        (l.foldl (fun acc d =>
          (acc.1 + parseHM d.astro_dark_hours, acc.2 + parseHM d.moonless_hours))
          acc).1 =
        acc.1 + (l.map (fun r => r.astroDarkMinutes)).sum := by
  intro l
  induction l with
  | nil => intro _ acc; simp
  | cons r rest ih =>
    intro h acc
    rw [List.foldl_cons, ih (fun x hx => h x (List.mem_cons_of_mem r hx))]
    rw [show (acc.1 + parseHM r.astro_dark_hours, acc.2 + parseHM r.moonless_hours).1
      = acc.1 + parseHM r.astro_dark_hours from rfl]
    rw [h r (List.mem_cons_self r rest), parseHM_formatHM]
    simp [List.sum_cons]
    omega

/-! ## Claim theorems -/

/-- C1 (counterexample): the claim pairs the option labels the wrong way
round. On a day with the Sun fixed at -30° and the Moon fixed at +45°
(step 720), under the option labeled "Ignore Moonlight" — the claim's
ExcludeMoonlight — every dark sub-interval is counted moonless
(1440 minutes) although no sub-interval has midpoint Moon altitude
< 0°, so moonless_minutes is not the claimed sub-interval count; and
under "Include Moonlight" moonless_minutes is 0, not
astro_dark_minutes. -/
theorem c1_counterexample :
    (computeOneDay constEph utcTZ 0 MoonOption.ignoreMoonlight 720).moonlessMinutes = 1440 ∧
    (computeOneDay constEph utcTZ 0 MoonOption.ignoreMoonlight 720).astroDarkMinutes = 1440 ∧
    ((pairs4 ((sampleTimes (dayStartUtc utcTZ 0) 720).map constEph.sunAlt)
        ((sampleTimes (dayStartUtc utcTZ 0) 720).map constEph.moonAlt)).countP
      (fun p => isDarkMid p && isMoonDownMid p)) = 0 ∧
    (computeOneDay constEph utcTZ 0 MoonOption.includeMoonlight 720).moonlessMinutes = 0 := by
  have h1 : sampleTimes (dayStartUtc utcTZ 0) 720 = [0, 720, 1440] := rfl
  have hsun : ([0, 720, 1440] : List ℤ).map constEph.sunAlt = [-30, -30, -30] := rfl
  have hmoon : ([0, 720, 1440] : List ℤ).map constEph.moonAlt = [45, 45, 45] := rfl
  have hp : pairs4 [-30, -30, -30] [45, 45, 45] =
      [((-30, -30), (45, 45)), ((-30, -30), (45, 45))] := rfl
  have hdark : isDarkMid (((-30 : ℚ), (-30 : ℚ)), ((45 : ℚ), (45 : ℚ))) = true := by
    simp only [isDarkMid, decide_eq_true_eq]
    norm_num
  have hmdown : isMoonDownMid (((-30 : ℚ), (-30 : ℚ)), ((45 : ℚ), (45 : ℚ))) = false := by
    simp only [isMoonDownMid, decide_eq_false_iff_not]
    norm_num
  refine ⟨?_, ?_, ?_, ?_⟩
  · rw [computeOneDay_moonless_minutes, h1, hsun, hmoon, hp]
    simp [List.countP_cons, moonlessPred, hdark]
  · rw [computeOneDay_astro_minutes, h1, hsun, hmoon, hp]
    simp [List.countP_cons, hdark]
  · rw [h1, hsun, hmoon, hp]
    simp [List.countP_cons, hdark, hmdown]
  · rw [computeOneDay_moonless_minutes, h1, hsun, hmoon, hp]
    simp [List.countP_cons, moonlessPred, hdark, hmdown]

/-- C1 (corrected, amended claim): for every day, under the option
labeled "Ignore Moonlight" the DayResult's moonless_minutes equals its
astro_dark_minutes, and under the option labeled "Include Moonlight"
moonless_minutes counts exactly the sub-intervals whose midpoint Sun
altitude is < -18° and whose midpoint Moon altitude is < 0° (times
step_minutes). -/
theorem c1_amended_option_semantics (eph : Ephemeris) (tz : TZ) (d : ℤ)
    (step : ℕ) :
    (computeOneDay eph tz d MoonOption.ignoreMoonlight step).moonlessMinutes =
      (computeOneDay eph tz d MoonOption.ignoreMoonlight step).astroDarkMinutes ∧
    (computeOneDay eph tz d MoonOption.includeMoonlight step).moonlessMinutes =
      step * ((pairs4 ((sampleTimes (dayStartUtc tz d) step).map eph.sunAlt)
        ((sampleTimes (dayStartUtc tz d) step).map eph.moonAlt)).countP
          (fun p => isDarkMid p && isMoonDownMid p)) := by
  constructor
  · rw [computeOneDay_moonless_minutes, computeOneDay_astro_minutes]
    rfl
  · rw [computeOneDay_moonless_minutes]
    rfl

/-- C2 (counterexample): on the sun-altitude samples
[-20, -10, -10, -20, -20] at minutes [0, 60, 120, 180, 240] (UTC
timezone), the only dark-start transition is at the pair (2,3), so
dark_start is "03:00"; no reverse transition occurs after it (checked
by the second conjunct), yet the code returns dark_end "01:00" — the
fallback timestamp of the reverse transition at the pair (0,1), which
precedes dark_start — instead of the claimed sentinel "-". -/
theorem c2_counterexample :
    find_dark_crossings [-20, -10, -10, -20, -20] [0, 60, 120, 180, 240] utcTZ =
      ("03:00", "01:00") ∧
    (∀ i : ℕ, i < 4 → 2 < i →
      ¬(([-20, -10, -10, -20, -20] : List ℚ).getD i 0 < -18 ∧
        ([-20, -10, -10, -20, -20] : List ℚ).getD (i + 1) 0 ≥ -18)) := by
  decide

/-- C2 (corrected, amended claim): dark_start is the first transition
from Sun altitude ≥ -18° to < -18°, timestamped at the later sample of
the pair in local "HH:MM"; dark_end is the first reverse transition
after dark_start if one exists, otherwise (dark_start having been
found) the first reverse transition anywhere in the window — the
code's documented assumption that darkness then ends on the next
day — and the sentinel "-" only when the respective transition set is
empty. -/
theorem c2_amended_crossings (alts : List ℚ) (times : List ℤ) (tz : TZ) :
    find_dark_crossings alts times tz =
      ((match (pairs3 alts times).findIdx? isDownP with
        | none => "-"
        | some j => localHHMM tz (((pairs3 alts times).getD j default).2.2)),
       (match (pairs3 alts times).findIdx? isDownP with
        | none => "-"
        | some j =>
          match ((pairs3 alts times).drop (j + 1)).find? isUpP with
          | some q => localHHMM tz q.2.2
          | none =>
            match (pairs3 alts times).find? isUpP with
            | some q => localHHMM tz q.2.2
            | none => "-")) :=
  find_dark_crossings_eq alts times tz

/-- C3 (confirmed): every DayResult of `compute_day_details` satisfies
0 ≤ moonless_minutes ≤ astro_dark_minutes ≤ 1440. -/
theorem c3_bounds (eph : Ephemeris) (tzAt : Option String)
    (lookup : String → Option TZ) (start_d end_d : ℤ) (opt : MoonOption)
    (step : ℕ) (r : DayResult)
    (hr : r ∈ compute_day_details eph tzAt lookup start_d end_d opt step) :
    0 ≤ r.moonlessMinutes ∧ r.moonlessMinutes ≤ r.astroDarkMinutes ∧
      r.astroDarkMinutes ≤ 1440 := by
  rcases compute_day_details_mem eph tzAt lookup start_d end_d opt step r hr
    with ⟨k, rfl⟩
  exact ⟨Nat.zero_le _,
    computeOneDay_moonless_le eph (resolveTz lookup tzAt) (start_d + (k : ℤ)) opt step,
    computeOneDay_astro_le eph (resolveTz lookup tzAt) (start_d + (k : ℤ)) opt step⟩

/-- Witness for C3: a concrete one-day computation and its bounds. -/
theorem c3_witness :
    (computeOneDay constEph utcTZ 0 MoonOption.includeMoonlight 720 ∈
      compute_day_details constEph none utcLookup 0 0 MoonOption.includeMoonlight 720) ∧
    (0 ≤ (computeOneDay constEph utcTZ 0 MoonOption.includeMoonlight 720).moonlessMinutes ∧
      (computeOneDay constEph utcTZ 0 MoonOption.includeMoonlight 720).moonlessMinutes ≤
        (computeOneDay constEph utcTZ 0 MoonOption.includeMoonlight 720).astroDarkMinutes ∧
      (computeOneDay constEph utcTZ 0 MoonOption.includeMoonlight 720).astroDarkMinutes ≤ 1440) := by
  have hmem : computeOneDay constEph utcTZ 0 MoonOption.includeMoonlight 720 ∈
      compute_day_details constEph none utcLookup 0 0 MoonOption.includeMoonlight 720 := by
    show computeOneDay constEph utcTZ 0 MoonOption.includeMoonlight 720 ∈
      [computeOneDay constEph utcTZ 0 MoonOption.includeMoonlight 720]
    exact List.mem_singleton.mpr rfl
  exact ⟨hmem,
    c3_bounds constEph none utcLookup 0 0 MoonOption.includeMoonlight 720 _ hmem⟩

/-- C4 (confirmed): for start_date ≤ end_date the computation returns
min((end−start).days + 1, MAX_DAYS) DayResults, one per consecutive
calendar day starting at start_date, in chronological order. -/
theorem c4_day_count (eph : Ephemeris) (tzAt : Option String)
    (lookup : String → Option TZ) (start_d end_d : ℤ) (opt : MoonOption)
    (step : ℕ) (h : start_d ≤ end_d) :
    (compute_day_details eph tzAt lookup start_d end_d opt step).length =
      min ((end_d - start_d).toNat + 1) MAX_DAYS ∧
    (compute_day_details eph tzAt lookup start_d end_d opt step).map
        (fun r => r.date) =
      (List.range (min ((end_d - start_d).toNat + 1) MAX_DAYS)).map
        (fun k : ℕ => start_d + (k : ℤ)) := by
  have htn : (end_d - start_d + 1).toNat = (end_d - start_d).toNat + 1 := by omega
  constructor
  · rw [compute_day_details_eq]
    simp [htn]
  · rw [compute_day_details_eq, List.map_map, htn]
    refine List.map_congr_left ?_
    intro k _
    simp [Function.comp, computeOneDay_date]

/-- Witness for C4: two requested days, two results, dated 0 and 1. -/
theorem c4_witness :
    (0 : ℤ) ≤ 1 ∧
    ((compute_day_details constEph none utcLookup 0 1 MoonOption.includeMoonlight 30).length =
        min (((1 : ℤ) - 0).toNat + 1) MAX_DAYS ∧
      (compute_day_details constEph none utcLookup 0 1 MoonOption.includeMoonlight 30).map
          (fun r => r.date) =
        (List.range (min (((1 : ℤ) - 0).toNat + 1) MAX_DAYS)).map
          (fun k : ℕ => (0 : ℤ) + (k : ℤ))) :=
  ⟨by decide,
    c4_day_count constEph none utcLookup 0 1 MoonOption.includeMoonlight 30 (by decide)⟩

/-- C5 (confirmed): a range longer than MAX_DAYS is rejected at the
caller boundary with an error, before any results are produced. -/
theorem c5_range_rejection (eph : Ephemeris) (tzAt : Option String)
    (lookup : String → Option TZ) (start_d end_d : ℤ) (opt : MoonOption)
    (step : ℕ) (h1 : start_d ≤ end_d)
    (h2 : (MAX_DAYS : ℤ) < end_d - start_d + 1) :
    main_compute eph tzAt lookup start_d end_d opt step =
      Except.error ("Please pick 30 days or fewer.") := by
  unfold main_compute
  rw [if_pos h2]

/-- Witness for C5: a 31-day request is rejected. -/
theorem c5_witness :
    ((0 : ℤ) ≤ 30 ∧ (MAX_DAYS : ℤ) < 30 - 0 + 1) ∧
    main_compute constEph none utcLookup 0 30 MoonOption.includeMoonlight 1 =
      Except.error ("Please pick 30 days or fewer.") :=
  ⟨⟨by decide, by decide⟩,
    c5_range_rejection constEph none utcLookup 0 30 MoonOption.includeMoonlight 1
      (by decide) (by decide)⟩

/-- C6 (counterexample): for step_minutes = 7 (which does not divide
24*60) the grid has 24*60/7 + 1 = 206 instants and its last instant is
1435 minutes after the window start — strictly before the window end at
1440 minutes — contradicting the claimed "last element at or after the
window end". -/
theorem c6_counterexample :
    (sampleTimes 0 7).length = 24 * 60 / 7 + 1 ∧
    (sampleTimes 0 7).getLast? = some 1435 ∧ (1435 : ℤ) < 0 + 24 * 60 := by
  refine ⟨sampleTimes_length 0 7, ?_, by decide⟩
  rw [sampleTimes_getLast]
  norm_num

/-- C6 (corrected, amended claim): for every step_minutes > 0 the grid
has (24*60)/step_minutes + 1 instants (integer division), the first at
the window start, consecutive instants exactly step_minutes apart, and
the last at (24*60/step)*step minutes after the start — at or BEFORE
the 24-hour window end, reaching it exactly when step_minutes divides
24*60 (as all offered step options do). -/
theorem c6_amended_grid (start_utc : ℤ) (step : ℕ) (hstep : 0 < step) :
    (sampleTimes start_utc step).length = 24 * 60 / step + 1 ∧
    (sampleTimes start_utc step).getD 0 0 = start_utc ∧
    (∀ k : ℕ, k + 1 < 24 * 60 / step + 1 →
      (sampleTimes start_utc step).getD (k + 1) 0 -
        (sampleTimes start_utc step).getD k 0 = (step : ℤ)) ∧
    (sampleTimes start_utc step).getLast? =
      some (start_utc + ((24 * 60 / step * step : ℕ) : ℤ)) ∧
    start_utc + ((24 * 60 / step * step : ℕ) : ℤ) ≤ start_utc + 24 * 60 ∧
    (start_utc + ((24 * 60 / step * step : ℕ) : ℤ) = start_utc + 24 * 60 ↔
      step ∣ 24 * 60) := by
  refine ⟨sampleTimes_length start_utc step, ?_, ?_,
    sampleTimes_getLast start_utc step, ?_, ?_⟩
  · rw [sampleTimes_getD start_utc step 0 (Nat.succ_pos _)]
    norm_num
  · intro k hk
    rw [sampleTimes_getD start_utc step (k + 1) hk,
      sampleTimes_getD start_utc step k (lt_trans (Nat.lt_succ_self k) hk)]
    push_cast
    ring
  · have h := Nat.div_mul_le_self (24 * 60) step
    omega
  · constructor
    · intro hEq
      have h2 : 24 * 60 / step * step = 24 * 60 := by omega
      exact ⟨24 * 60 / step, by rw [Nat.mul_comm step (24 * 60 / step)]; exact h2.symm⟩
    · intro hdvd
      have h2 : 24 * 60 / step * step = 24 * 60 := Nat.div_mul_cancel hdvd
      rw [h2]
      norm_num

/-- Witness for C6: the amended grid facts at step_minutes = 5. -/
theorem c6_witness :
    0 < 5 ∧
    ((sampleTimes 0 5).length = 24 * 60 / 5 + 1 ∧
      (sampleTimes 0 5).getD 0 0 = 0 ∧
      (∀ k : ℕ, k + 1 < 24 * 60 / 5 + 1 →
        (sampleTimes 0 5).getD (k + 1) 0 - (sampleTimes 0 5).getD k 0 = ((5 : ℕ) : ℤ)) ∧
      (sampleTimes 0 5).getLast? = some ((0 : ℤ) + ((24 * 60 / 5 * 5 : ℕ) : ℤ)) ∧
      (0 : ℤ) + ((24 * 60 / 5 * 5 : ℕ) : ℤ) ≤ 0 + 24 * 60 ∧
      ((0 : ℤ) + ((24 * 60 / 5 * 5 : ℕ) : ℤ) = 0 + 24 * 60 ↔ (5 : ℕ) ∣ 24 * 60)) :=
  ⟨by decide, c6_amended_grid 0 5 (by decide)⟩

/-- C7 (confirmed): the moon-phase mapping reduces the phase angle
modulo 360°, always lands in one of exactly 8 categories, uses the
45°-wide buckets with boundaries at 22.5°, 67.5°, ..., 337.5° (each
bucket characterized below for reduced angles), maps both 0° and 359°
to the new-moon bucket, and the phase fed to it by the per-day
computation is (Moon ecliptic longitude − Sun ecliptic longitude)
mod 360 evaluated at local noon of the labeled date. -/
theorem c7_phase_buckets :
    (∀ p : ℚ, moon_phase_icon p ∈
      (["🌑", "🌒", "🌓", "🌔", "🌕", "🌖", "🌗", "🌘"] : List String)) ∧
    (∀ p : ℚ, moon_phase_icon p = moon_phase_icon (qmod360 p)) ∧
    (∀ x : ℚ, 0 ≤ x → x < 22.5 → moon_phase_icon x = "🌑") ∧
    (∀ x : ℚ, 337.5 ≤ x → x < 360 → moon_phase_icon x = "🌑") ∧
    (∀ x : ℚ, 22.5 ≤ x → x < 67.5 → moon_phase_icon x = "🌒") ∧
    (∀ x : ℚ, 67.5 ≤ x → x < 112.5 → moon_phase_icon x = "🌓") ∧
    (∀ x : ℚ, 112.5 ≤ x → x < 157.5 → moon_phase_icon x = "🌔") ∧
    (∀ x : ℚ, 157.5 ≤ x → x < 202.5 → moon_phase_icon x = "🌕") ∧
    (∀ x : ℚ, 202.5 ≤ x → x < 247.5 → moon_phase_icon x = "🌖") ∧
    (∀ x : ℚ, 247.5 ≤ x → x < 292.5 → moon_phase_icon x = "🌗") ∧
    (∀ x : ℚ, 292.5 ≤ x → x < 337.5 → moon_phase_icon x = "🌘") ∧
    moon_phase_icon 0 = "🌑" ∧
    moon_phase_icon 359 = "🌑" ∧
    (∀ (eph : Ephemeris) (tz : TZ) (d : ℤ) (opt : MoonOption) (step : ℕ),
      (computeOneDay eph tz d opt step).moon_phase =
        moon_phase_icon
          (qmod360 (eph.moonEclLon (noonUtc tz d) - eph.sunEclLon (noonUtc tz d)))) := by
  refine ⟨icon_mem, icon_idem, icon_new_low, icon_new_high, icon_wax_crescent,
    icon_first_quarter, icon_wax_gibbous, icon_full, icon_wan_gibbous,
    icon_last_quarter, icon_wan_crescent, ?_, ?_, computeOneDay_moon_phase⟩
  · exact icon_new_low 0 le_rfl (by norm_num)
  · exact icon_new_high 359 (by norm_num) (by norm_num)

/-- Witness for C7: the first-quarter bucket at 100°. -/
theorem c7_witness : moon_phase_icon 100 = "🌓" :=
  (c7_phase_buckets).2.2.2.2.2.1 100 (by norm_num) (by norm_num)

/-- C8 (confirmed): the range total of astro-dark minutes computed by
the caller — by formatting each day's minutes as "H Hours M Minutes"
and parsing the string back — equals the sum of the per-day
astro-dark minute totals over the returned sequence. -/
theorem c8_range_summation (eph : Ephemeris) (tzAt : Option String)
    (lookup : String → Option TZ) (start_d end_d : ℤ) (opt : MoonOption)
    (step : ℕ) :
    (range_totals (compute_day_details eph tzAt lookup start_d end_d opt step)).1 =
      ((compute_day_details eph tzAt lookup start_d end_d opt step).map
        (fun r => r.astroDarkMinutes)).sum := by
  have hfmt : ∀ r ∈ compute_day_details eph tzAt lookup start_d end_d opt step,
      r.astro_dark_hours = formatHM r.astroDarkMinutes := by
    intro r hr
    rcases compute_day_details_mem eph tzAt lookup start_d end_d opt step r hr
      with ⟨k, rfl⟩
    exact computeOneDay_astro_format eph (resolveTz lookup tzAt)
      (start_d + (k : ℤ)) opt step
  unfold range_totals
  rw [range_totals_aux _ hfmt (0, 0)]
  norm_num

/-- C9 (confirmed): when no timezone name can be resolved for the
coordinates, the computation substitutes UTC (pytz always knows the
name "UTC") and still produces one DayResult per requested day up to
the cap — timezone-resolution failure never fails the computation. -/
theorem c9_tz_fallback (eph : Ephemeris) (lookup : String → Option TZ)
    (start_d end_d : ℤ) (opt : MoonOption) (step : ℕ)
    (hutc : lookup ("UTC") = some utcTZ) :
    resolveTz lookup none = utcTZ ∧
    compute_day_details eph none lookup start_d end_d opt step =
      (List.range (min (end_d - start_d + 1).toNat MAX_DAYS)).map
        (fun k : ℕ => computeOneDay eph utcTZ (start_d + (k : ℤ)) opt step) ∧
    (compute_day_details eph none lookup start_d end_d opt step).length =
      min (end_d - start_d + 1).toNat MAX_DAYS := by
  have hres : resolveTz lookup none = utcTZ := by
    show (match lookup ("UTC") with
      | some tz => tz
      | none => utcTZ) = utcTZ
    rw [hutc]
  refine ⟨hres, ?_, ?_⟩
  · rw [compute_day_details_eq, hres]
  · rw [compute_day_details_eq]
    simp

/-- Witness for C9: the concrete UTC-only lookup. -/
theorem c9_witness :
    utcLookup ("UTC") = some utcTZ ∧
    (resolveTz utcLookup none = utcTZ ∧
      compute_day_details constEph none utcLookup 0 1 MoonOption.includeMoonlight 60 =
        (List.range (min ((1 : ℤ) - 0 + 1).toNat MAX_DAYS)).map
          (fun k : ℕ => computeOneDay constEph utcTZ ((0 : ℤ) + (k : ℤ))
            MoonOption.includeMoonlight 60) ∧
      (compute_day_details constEph none utcLookup 0 1 MoonOption.includeMoonlight 60).length =
        min ((1 : ℤ) - 0 + 1).toNat MAX_DAYS) :=
  ⟨rfl, c9_tz_fallback constEph utcLookup 0 1 MoonOption.includeMoonlight 60 rfl⟩

/-- C10 (confirmed): the crossing finder never reports a dark_end
without a dark_start — if dark_start is the sentinel "-", so is
dark_end. -/
theorem c10_no_end_without_start (alts : List ℚ) (times : List ℤ) (tz : TZ)
    (h : (find_dark_crossings alts times tz).1 = "-") :
    (find_dark_crossings alts times tz).2 = "-" := by
  rw [find_dark_crossings_eq] at h ⊢
  cases hfi : (pairs3 alts times).findIdx? isDownP with
  | none => simp [hfi]
  | some j =>
    rw [hfi] at h
    simp only [] at h
    exact absurd h (localHHMM_ne_dash tz _)

/-- Witness for C10: the empty sample list yields both sentinels. -/
theorem c10_witness :
    (find_dark_crossings [] [] utcTZ).1 = "-" ∧
    (find_dark_crossings [] [] utcTZ).2 = "-" :=
  ⟨rfl, c10_no_end_without_start [] [] utcTZ rfl⟩

end AstroApp
